import Mathlib

/-!
Shallow embedding of the `pkce` Go package (RFC 7636 proof-key generation
and verification).

Conventions of the embedding:
* Go `[]byte` and `string` values are modelled as `List Nat` (byte lists);
  all data handled by the package is single-byte ASCII, compared byte-wise.
* The Go named string type `Method` is modelled as Lean `String`.
* Go `int` is modelled as `Int` where the sign matters (verifier lengths).
* Fallible Go functions returning `error` are modelled with `Option Err`
  (`none` = `nil` error); functions returning `(T, error)` with `Except`
  or with explicit pairs carrying the possibly-mutated `Key`.
* The cryptographically secure random source `crypto/rand.Int(reader, 66)`
  is modelled as a stream `g : Nat → Fin 66` together with a cursor `c : Nat`
  marking how much of the stream has been consumed; `rand.Int`'s contract
  (a uniform value in `[0, 66)`) is captured by the codomain `Fin 66`.
* The library primitives `crypto/sha256` and `encoding/base64`
  (`RawURLEncoding`) are modelled as pure functions `sha256` and `b64url`
  below, written from their standard definitions (FIPS 180-4, RFC 4648 §5
  without padding).
-/

namespace PKCE

/-- Byte strings: Go `[]byte` / `string` values. -/
abbrev Bytes := List Nat

/-- ASCII bytes of a Lean string literal (all data here is ASCII). -/
def strBytes (s : String) : Bytes := s.data.map Char.toNat

/-- Go `type Method string`. -/
abbrev Method := String

/-- `Plain Method = "plain"`. -/
def Plain : Method := "plain"

/-- `S256 Method = "S256"`. -/
def S256 : Method := "S256"

/-- `alpha = "ABCDEFGHIJKLMNOPQRSTUVWXYZabcdefghijklmnopqrstuvwxyz"`. -/
def alpha : String := "ABCDEFGHIJKLMNOPQRSTUVWXYZabcdefghijklmnopqrstuvwxyz"

/-- `digit = "0123456789"`. -/
def digit : String := "0123456789"

/-- `unreserved = alpha + digit + "-._~"`. -/
def unreserved : String := alpha ++ digit ++ "-._~"

/-- The unreserved alphabet as bytes; Go indexes `unreserved[j]` byte-wise. -/
def unreservedBytes : Bytes := strBytes unreserved

/-- `verifierMinLen = 43` (RFC 7636, 4.1). -/
def verifierMinLen : Int := 43

/-- `verifierMaxLen = 128` (RFC 7636, 4.1). -/
def verifierMaxLen : Int := 128

/-- The four sentinel error values of `errors.go`. -/
inductive Err where
  | methodDowngrade
  | methodNotSupported
  | verifierCharacters
  | verifierLength
deriving DecidableEq, Repr

/-- `validVerifierChar` from `validation.go`: ASCII letter, digit, or one of
`- . _ ~`. -/
def validVerifierChar (c : Nat) : Bool :=
  if (97 ≤ c && c ≤ 122) || (65 ≤ c && c ≤ 90) || (48 ≤ c && c ≤ 57) then
    true
  else
    c == 45 || c == 46 || c == 95 || c == 126

/-- `validateVerifierLen` from `validation.go`. -/
def validateVerifierLen (n : Int) : Option Err :=
  if n < verifierMinLen ∨ n > verifierMaxLen then
    some Err.verifierLength
  else
    none

/-- `validateCodeVerifierCharacters` from `validation.go`: first offending
byte aborts the loop. -/
def validateCodeVerifierCharacters : Bytes → Option Err
  | [] => none
  | c :: rest =>
    if validVerifierChar c then validateCodeVerifierCharacters rest
    else some Err.verifierCharacters

/-- `validateCodeVerifier` from `validation.go`: length check first, then
character check, short-circuiting. -/
def validateCodeVerifier (verifier : Bytes) : Option Err :=
  match validateVerifierLen (verifier.length : Int) with
  | some e => some e
  | none =>
    match validateCodeVerifierCharacters verifier with
    | some e => some e
    | none => none

/-! ### Model of `crypto/sha256` (FIPS 180-4) over byte lists -/

/-- Truncation to a 32-bit word. -/
def w32 (x : Nat) : Nat := x % 4294967296

/-- 32-bit right rotation. -/
def rotr32 (n x : Nat) : Nat := w32 ((x >>> n) ||| (x <<< (32 - n)))

/-- 32-bit complement. -/
def not32 (x : Nat) : Nat := x ^^^ 4294967295

/-- SHA-256 `Ch` function. -/
def shaCh (x y z : Nat) : Nat := (x &&& y) ^^^ (not32 x &&& z)

/-- SHA-256 `Maj` function. -/
def shaMaj (x y z : Nat) : Nat := (x &&& y) ^^^ (x &&& z) ^^^ (y &&& z)

/-- SHA-256 `Σ0`. -/
def bigSigma0 (x : Nat) : Nat := rotr32 2 x ^^^ rotr32 13 x ^^^ rotr32 22 x

/-- SHA-256 `Σ1`. -/
def bigSigma1 (x : Nat) : Nat := rotr32 6 x ^^^ rotr32 11 x ^^^ rotr32 25 x

/-- SHA-256 `σ0`. -/
def smallSigma0 (x : Nat) : Nat := rotr32 7 x ^^^ rotr32 18 x ^^^ (x >>> 3)

/-- SHA-256 `σ1`. -/
def smallSigma1 (x : Nat) : Nat := rotr32 17 x ^^^ rotr32 19 x ^^^ (x >>> 10)

/-- The eight 32-bit words of a SHA-256 hash state. -/
structure Hash8 where
  a : Nat
  b : Nat
  c : Nat
  d : Nat
  e : Nat
  f : Nat
  g : Nat
  h : Nat
deriving Repr, DecidableEq

/-- SHA-256 round constants (decimal values of the FIPS 180-4 table). -/
def shaK : List Nat :=
  [1116352408, 1899447441, 3049323471, 3921009573,
   961987163, 1508970993, 2453635748, 2870763221,
   3624381080, 310598401, 607225278, 1426881987,
   1925078388, 2162078206, 2614888103, 3248222580,
   3835390401, 4022224774, 264347078, 604807628,
   770255983, 1249150122, 1555081692, 1996064986,
   2554220882, 2821834349, 2952996808, 3210313671,
   3336571891, 3584528711, 113926993, 338241895,
   666307205, 773529912, 1294757372, 1396182291,
   1695183700, 1986661051, 2177026350, 2456956037,
   2730485921, 2820302411, 3259730800, 3345764771,
   3516065817, 3600352804, 4094571909, 275423344,
   430227734, 506948616, 659060556, 883997877,
   958139571, 1322822218, 1537002063, 1747873779,
   1955562222, 2024104815, 2227730452, 2361852424,
   2428436474, 2756734187, 3204031479, 3329325298]

/-- SHA-256 initial hash state (decimal values of the FIPS 180-4 table). -/
def shaH0 : Hash8 :=
  ⟨1779033703, 3144134277, 1013904242, 2773480762,
   1359893119, 2600822924, 528734635, 1541459225⟩

/-- Big-endian 64-bit encoding of the message bit length. -/
def lenBytes64 (bits : Nat) : Bytes :=
  [(bits >>> 56) % 256, (bits >>> 48) % 256, (bits >>> 40) % 256, (bits >>> 32) % 256,
   (bits >>> 24) % 256, (bits >>> 16) % 256, (bits >>> 8) % 256, bits % 256]

/-- SHA-256 message padding to a multiple of 64 bytes. -/
def shaPad (msg : Bytes) : Bytes :=
  msg ++ [128] ++ List.replicate ((64 - (msg.length + 9) % 64) % 64) 0
      ++ lenBytes64 (8 * msg.length)

/-- Big-endian grouping of bytes into 32-bit words. -/
def toWords : Bytes → List Nat
  | b1 :: b2 :: b3 :: b4 :: rest =>
      ((b1 <<< 24) ||| (b2 <<< 16) ||| (b3 <<< 8) ||| b4) :: toWords rest
  | _ => []

/-- Fuelled chunking of the word list into 16-word blocks. -/
def toBlocksAux : Nat → List Nat → List (List Nat)
  | 0, _ => []
  | fuel + 1, ws =>
    if ws.isEmpty then []
    else ws.take 16 :: toBlocksAux fuel (ws.drop 16)

/-- Chunk a word list into 16-word blocks. -/
def toBlocks (ws : List Nat) : List (List Nat) := toBlocksAux ws.length ws

/-- Extend the 16-word block to the 64-word message schedule. -/
def extendSchedule : List Nat → Nat → List Nat
  | ws, 0 => ws
  | ws, n + 1 =>
    let len := ws.length
    extendSchedule
      (ws ++ [w32 (smallSigma1 (ws.getD (len - 2) 0) + ws.getD (len - 7) 0 +
                   smallSigma0 (ws.getD (len - 15) 0) + ws.getD (len - 16) 0)]) n

/-- One SHA-256 compression round. -/
def compressStep (st : Hash8) (kw : Nat × Nat) : Hash8 :=
  let t1 := w32 (st.h + bigSigma1 st.e + shaCh st.e st.f st.g + kw.1 + kw.2)
  let t2 := w32 (bigSigma0 st.a + shaMaj st.a st.b st.c)
  ⟨w32 (t1 + t2), st.a, st.b, st.c, w32 (st.d + t1), st.e, st.f, st.g⟩

/-- SHA-256 compression of one 16-word block into the hash state. -/
def compressBlock (st : Hash8) (block : List Nat) : Hash8 :=
  let ws := extendSchedule block 48
  let t := (shaK.zip ws).foldl compressStep st
  ⟨w32 (st.a + t.a), w32 (st.b + t.b), w32 (st.c + t.c), w32 (st.d + t.d),
   w32 (st.e + t.e), w32 (st.f + t.f), w32 (st.g + t.g), w32 (st.h + t.h)⟩

/-- Big-endian serialization of one 32-bit word. -/
def wordBytesBE (x : Nat) : Bytes :=
  [(x >>> 24) % 256, (x >>> 16) % 256, (x >>> 8) % 256, x % 256]

/-- Big-endian serialization of the final hash state: the 32 digest bytes. -/
def digestBytes (st : Hash8) : Bytes :=
  wordBytesBE st.a ++ wordBytesBE st.b ++ wordBytesBE st.c ++ wordBytesBE st.d ++
  wordBytesBE st.e ++ wordBytesBE st.f ++ wordBytesBE st.g ++ wordBytesBE st.h

/-- SHA-256 digest of a byte sequence, as 32 bytes.  Models the Go calls
`s256 := sha256.New(); s256.Write(codeVerifier); s256.Sum(nil)`. -/
def sha256 (msg : Bytes) : Bytes :=
  digestBytes ((toBlocks (toWords (shaPad msg))).foldl compressBlock shaH0)

/-! ### Model of `encoding/base64.RawURLEncoding` (RFC 4648 §5, no padding) -/

/-- The base64url alphabet. -/
def b64Alphabet : Bytes :=
  strBytes "ABCDEFGHIJKLMNOPQRSTUVWXYZabcdefghijklmnopqrstuvwxyz0123456789-_"

/-- The base64url character for a 6-bit value. -/
def b64Char (j : Nat) : Nat := b64Alphabet.getD j 0

/-- base64url encoding without padding, as performed by
`base64.RawURLEncoding.EncodeToString`. -/
def b64url : Bytes → Bytes
  | [] => []
  | [b1] => [b64Char (b1 >>> 2), b64Char ((b1 % 4) <<< 4)]
  | [b1, b2] =>
      [b64Char (b1 >>> 2), b64Char (((b1 % 4) <<< 4) ||| (b2 >>> 4)),
       b64Char ((b2 % 16) <<< 2)]
  | b1 :: b2 :: b3 :: rest =>
      b64Char (b1 >>> 2) :: b64Char (((b1 % 4) <<< 4) ||| (b2 >>> 4)) ::
      b64Char (((b2 % 16) <<< 2) ||| (b3 >>> 6)) :: b64Char (b3 % 64) :: b64url rest

/-! ### Generation and transform primitives (`pkce.go`) -/

/-- `generateCodeVerifier` from `pkce.go`: byte `i` of the output is
`unreserved[j]` for a fresh random `j ∈ [0, 66)` drawn from the stream `g`
at cursor `c + i`. -/
def generateCodeVerifier (g : Nat → Fin 66) (c : Nat) (n : Nat) : Bytes :=
  (List.range n).map (fun i => unreservedBytes.getD (g (c + i)) 0)

/-- `generateCodeChallenge` from `pkce.go`: identity for the `plain` method,
base64url-without-padding of SHA-256 for every other method value. -/
def generateCodeChallenge (method : Method) (codeVerifier : Bytes) : Bytes :=
  if method == Plain then codeVerifier
  else b64url (sha256 codeVerifier)

/-- `GenerateCodeVerifier` from `pkce.go`: validates the requested length and
then generates.  The Go function returns `("", err)` on failure, modelled by
`Except`. -/
def GenerateCodeVerifier (g : Nat → Fin 66) (c : Nat) (n : Int) : Except Err Bytes :=
  match validateVerifierLen n with
  | some e => Except.error e
  | none => Except.ok (generateCodeVerifier g c n.toNat)

/-- `GenerateCodeChallenge` from `pkce.go`: validates the verifier (not the
method) and then transforms. -/
def GenerateCodeChallenge (method : Method) (codeVerifier : Bytes) : Except Err Bytes :=
  match validateCodeVerifier codeVerifier with
  | some e => Except.error e
  | none => Except.ok (generateCodeChallenge method codeVerifier)

/-- `VerifyCodeVerifier` from `pkce.go` (free function): switch on the
method, byte-wise comparisons, failures collapse to `false`. -/
def VerifyCodeVerifier (method : Method) (codeVerifier codeChallenge : Bytes) : Bool :=
  if method == Plain then
    codeVerifier == codeChallenge
  else if method == S256 then
    match GenerateCodeChallenge method codeVerifier with
    | Except.error _ => false
    | Except.ok codeVerifierChallenge => codeVerifierChallenge == codeChallenge
  else false

/-! ### The `Key` aggregate and its operations (`pkce.go`) -/

/-- The Go `Key` struct.  A `nil`/absent Go byte slice is the empty list. -/
structure Key where
  challengeMethod : Method
  codeVerifierLen : Int
  codeVerifier : Bytes
deriving DecidableEq, Repr

/-- The Go zero value `Key{}`. -/
def zeroKey : Key := { challengeMethod := "", codeVerifierLen := 0, codeVerifier := [] }

/-- `Key.SetChallengeMethod` from `pkce.go`.  Stateful Go methods are
modelled as returning the error (`none` = `nil`) together with the updated
`Key`. -/
def Key.SetChallengeMethod (k : Key) (method : Method) : Option Err × Key :=
  if method == Plain || method == S256 then
    if k.challengeMethod == S256 && method == Plain then
      (some Err.methodDowngrade, k)
    else
      (none, { k with challengeMethod := method })
  else
    (some Err.methodNotSupported, k)

/-- `Key.ChallengeMethod` from `pkce.go`. -/
def Key.ChallengeMethod (k : Key) : Method := k.challengeMethod

/-- `Key.setCodeVerifierLength` from `pkce.go`: silent no-op when a verifier
is present, otherwise validated assignment. -/
def Key.setCodeVerifierLength (k : Key) (n : Int) : Option Err × Key :=
  if k.codeVerifier.length > 0 then
    (none, k)
  else
    match validateVerifierLen n with
    | some e => (some e, k)
    | none => (none, { k with codeVerifierLen := n })

/-- `Key.setCodeVerifier` from `pkce.go`: validated assignment that also
updates `codeVerifierLen` to the verifier's length. -/
def Key.setCodeVerifier (k : Key) (verifier : Bytes) : Option Err × Key :=
  match validateCodeVerifier verifier with
  | some e => (some e, k)
  | none =>
      (none, { k with codeVerifier := verifier,
                      codeVerifierLen := (verifier.length : Int) })

/-- `Key.getCodeVerifier` from `pkce.go`: lazily generates (consuming
randomness, advancing the cursor) and memoizes when no verifier is present.
Returns the verifier, the updated key, and the new stream cursor. -/
def Key.getCodeVerifier (k : Key) (g : Nat → Fin 66) (c : Nat) : Bytes × Key × Nat :=
  if k.codeVerifier.length = 0 then
    (generateCodeVerifier g c k.codeVerifierLen.toNat,
     { k with codeVerifier := generateCodeVerifier g c k.codeVerifierLen.toNat },
     c + k.codeVerifierLen.toNat)
  else
    (k.codeVerifier, k, c)

/-- `Key.CodeVerifier` from `pkce.go`. -/
def Key.CodeVerifier (k : Key) (g : Nat → Fin 66) (c : Nat) : Bytes × Key × Nat :=
  k.getCodeVerifier g c

/-- `Key.CodeChallenge` from `pkce.go`: recomputed fresh on every call from
the (possibly just materialized) verifier and the current method. -/
def Key.CodeChallenge (k : Key) (g : Nat → Fin 66) (c : Nat) : Bytes × Key × Nat :=
  (generateCodeChallenge k.ChallengeMethod (k.getCodeVerifier g c).1,
   (k.getCodeVerifier g c).2.1, (k.getCodeVerifier g c).2.2)

/-- `Key.VerifyCodeVerifier` from `pkce.go`: delegates to the stateless
verification against this key's own freshly computed challenge.  (Named
`VerifyOwn` here only to avoid clashing with the free function.) -/
def Key.VerifyOwn (k : Key) (g : Nat → Fin 66) (c : Nat) (codeVerifier : Bytes) :
    Bool × Key × Nat :=
  (VerifyCodeVerifier k.ChallengeMethod codeVerifier (k.CodeChallenge g c).1,
   (k.CodeChallenge g c).2.1, (k.CodeChallenge g c).2.2)

/-! ### Options and construction (`options.go`) -/

/-- The three public `Option` constructors of `options.go`.  The Go `Option`
is a closure `func(*Key) error`; the public API builds exactly these three. -/
inductive OptionK where
  | withChallengeMethod (method : Method)
  | withCodeVerifier (codeVerifier : Bytes)
  | withCodeVerifierLength (n : Int)

/-- Application of one option to a key, following `options.go`.
`WithChallengeMethod` assigns directly after the legality check — it has no
downgrade guard. -/
def applyOption (k : Key) : OptionK → Option Err × Key
  | OptionK.withChallengeMethod method =>
      if method == Plain || method == S256 then
        (none, { k with challengeMethod := method })
      else
        (some Err.methodNotSupported, k)
  | OptionK.withCodeVerifier codeVerifier => k.setCodeVerifier codeVerifier
  | OptionK.withCodeVerifierLength n => k.setCodeVerifierLength n

/-- The defaults `New` starts from: method `S256`, length 43, no verifier. -/
def defaultKey : Key :=
  { challengeMethod := S256, codeVerifierLen := verifierMinLen, codeVerifier := [] }

/-- The option-application loop of `New`: aborts on the first failing
option, returning the partially constructed key alongside the error. -/
def applyOptions : Key → List OptionK → Option Err × Key
  | k, [] => (none, k)
  | k, o :: rest =>
    match applyOption k o with
    | (some e, k1) => (some e, k1)
    | (none, k1) => applyOptions k1 rest

/-- `New` from `pkce.go`. -/
def New (opts : List OptionK) : Option Err × Key :=
  applyOptions defaultKey opts

/-! ### Reachable key states, the key invariant, and auxiliary maps -/

/-- Key states reachable from construction through the public surface:
the `New` defaults, option application, and the key operations. -/
inductive Reached : Key → Prop where
  | base : Reached defaultKey
  | opt (k : Key) (o : OptionK) : Reached k → Reached (applyOption k o).2
  | setMethod (k : Key) (m : Method) : Reached k → Reached (k.SetChallengeMethod m).2
  | setLen (k : Key) (n : Int) : Reached k → Reached (k.setCodeVerifierLength n).2
  | setVer (k : Key) (v : Bytes) : Reached k → Reached (k.setCodeVerifier v).2
  | getVer (k : Key) (g : Nat → Fin 66) (c : Nat) : Reached k → Reached (k.getCodeVerifier g c).2.1

/-- The state invariant of a key: the target length stays in the RFC bounds,
the method stays legal, and a present verifier is valid with
`codeVerifierLen` equal to its length. -/
def KeyInv (k : Key) : Prop :=
  43 ≤ k.codeVerifierLen ∧ k.codeVerifierLen ≤ 128 ∧
  (k.challengeMethod = Plain ∨ k.challengeMethod = S256) ∧
  (k.codeVerifier ≠ [] →
    (k.codeVerifier.length : Int) = k.codeVerifierLen ∧
    validateCodeVerifier k.codeVerifier = none)

/-- The length-128 verifier whose byte `i` is the unreserved alphabet symbol
selected by `x i`; used to count hash collisions among valid verifiers. -/
def encodeVerifier (x : Fin 128 → Fin 66) : Bytes :=
  List.ofFn (fun i => unreservedBytes.getD (x i) 0)

/-- The SHA-256 digest of a byte string, read as a function into bytes. -/
def digestFin (v : Bytes) : Fin 32 → Fin 256 := fun i =>
  ⟨(sha256 v).getD i 0 % 256, Nat.mod_lt _ (by omega)⟩

/-! ### Basic lemmas about validation and generation -/

theorem validateVerifierLen_eq_none {n : Int} :
    validateVerifierLen n = none ↔ 43 ≤ n ∧ n ≤ 128 := by
  unfold validateVerifierLen verifierMinLen verifierMaxLen
  split
  · next hc => exact iff_of_false (by simp) (by omega)
  · next hc => exact iff_of_true rfl (by omega)

theorem validateVerifierLen_eq_some {n : Int} :
    validateVerifierLen n = some Err.verifierLength ↔ n < 43 ∨ 128 < n := by
  unfold validateVerifierLen verifierMinLen verifierMaxLen
  split
  · next hc => exact iff_of_true rfl (by omega)
  · next hc => exact iff_of_false (by simp) (by omega)

theorem validateCodeVerifierCharacters_eq_none {v : Bytes} :
    validateCodeVerifierCharacters v = none ↔ ∀ b ∈ v, validVerifierChar b = true := by
  induction v with
  | nil => simp [validateCodeVerifierCharacters]
  | cons c rest ih =>
      by_cases hc : validVerifierChar c
      · simp [validateCodeVerifierCharacters, hc, ih]
      · simp [validateCodeVerifierCharacters, hc]

theorem validateCodeVerifier_eq_none {v : Bytes} :
    validateCodeVerifier v = none ↔
      43 ≤ (v.length : Int) ∧ (v.length : Int) ≤ 128 ∧
        ∀ b ∈ v, validVerifierChar b = true := by
  unfold validateCodeVerifier
  rcases hl : validateVerifierLen (v.length : Int) with _ | e
  · rcases hch : validateCodeVerifierCharacters v with _ | e
    · have h1 := validateVerifierLen_eq_none.mp hl
      have h2 := validateCodeVerifierCharacters_eq_none.mp hch
      exact iff_of_true rfl ⟨h1.1, h1.2, h2⟩
    · refine iff_of_false (by simp) ?_
      rintro ⟨-, -, hall⟩
      rw [validateCodeVerifierCharacters_eq_none.mpr hall] at hch
      exact Option.noConfusion hch
  · refine iff_of_false (by simp) ?_
    rintro ⟨hmin, hmax, -⟩
    rw [validateVerifierLen_eq_none.mpr ⟨hmin, hmax⟩] at hl
    exact Option.noConfusion hl

theorem unreservedBytes_length : unreservedBytes.length = 66 := by decide

theorem validVerifierChar_unreserved : ∀ j : Fin 66, validVerifierChar (unreservedBytes.getD j 0) = true := by decide

theorem mem_unreservedBytes : ∀ j : Fin 66, unreservedBytes.getD j 0 ∈ unreservedBytes := by decide

theorem generateCodeVerifier_length (g : Nat → Fin 66) (c n : Nat) :
    (generateCodeVerifier g c n).length = n := by
  simp [generateCodeVerifier]

theorem generateCodeVerifier_mem {g : Nat → Fin 66} {c n : Nat} {b : Nat}
    (hb : b ∈ generateCodeVerifier g c n) : b ∈ unreservedBytes := by
  simp only [generateCodeVerifier, List.mem_map] at hb
  obtain ⟨i, -, rfl⟩ := hb
  exact mem_unreservedBytes _

theorem generateCodeVerifier_validChar {g : Nat → Fin 66} {c n : Nat} {b : Nat}
    (hb : b ∈ generateCodeVerifier g c n) : validVerifierChar b = true := by
  simp only [generateCodeVerifier, List.mem_map] at hb
  obtain ⟨i, -, rfl⟩ := hb
  exact validVerifierChar_unreserved _

theorem generateCodeVerifier_valid {g : Nat → Fin 66} {c n : Nat}
    (hmin : 43 ≤ n) (hmax : n ≤ 128) :
    validateCodeVerifier (generateCodeVerifier g c n) = none := by
  rw [validateCodeVerifier_eq_none]
  refine ⟨?_, ?_, fun b hb => generateCodeVerifier_validChar hb⟩
  · rw [generateCodeVerifier_length]
    exact_mod_cast hmin
  · rw [generateCodeVerifier_length]
    exact_mod_cast hmax

/-! ### Claim C2: the `SetChallengeMethod` transition rule -/

/-- C2: `Key.SetChallengeMethod m` follows the three-case transition rule:
unsupported methods fail `ErrMethodNotSupported` without mutation; setting
`plain` on a key at `S256` fails `ErrMethodDowngrade` without mutation;
every other case succeeds and sets `challengeMethod` to `m`. -/
theorem c2_setChallengeMethod_cases (k : Key) (m : Method) :
    (m ≠ Plain → m ≠ S256 → k.SetChallengeMethod m = (some Err.methodNotSupported, k)) ∧
    (k.challengeMethod = S256 → m = Plain → k.SetChallengeMethod m = (some Err.methodDowngrade, k)) ∧
    ((m = Plain ∨ m = S256) → ¬(k.challengeMethod = S256 ∧ m = Plain) →
      k.SetChallengeMethod m = (none, { k with challengeMethod := m })) := by
  refine ⟨fun h1 h2 => ?_, fun h1 h2 => ?_, fun h1 h2 => ?_⟩
  · simp [Key.SetChallengeMethod, h1, h2]
  · simp [Key.SetChallengeMethod, h1, h2, Plain, S256]
  · rcases h1 with h1 | h1 <;>
      simp_all [Key.SetChallengeMethod, Plain, S256]

/-- C2 witness: the three cases exercised on concrete keys. -/
theorem c2_setChallengeMethod_cases_witness :
    defaultKey.SetChallengeMethod "nope" = (some Err.methodNotSupported, defaultKey) ∧
    defaultKey.SetChallengeMethod Plain = (some Err.methodDowngrade, defaultKey) ∧
    defaultKey.SetChallengeMethod S256 = (none, { defaultKey with challengeMethod := S256 }) :=
  ⟨(c2_setChallengeMethod_cases defaultKey "nope").1 (by decide) (by decide),
   (c2_setChallengeMethod_cases defaultKey Plain).2.1 (by decide) rfl,
   (c2_setChallengeMethod_cases defaultKey S256).2.2 (Or.inr rfl) (by decide)⟩

/-! ### Claim C1: `WithChallengeMethod` versus `SetChallengeMethod` -/

/-- C1 counterexample: on a key at `S256` (the `New` default),
`WithChallengeMethod(plain)` succeeds and downgrades the method, while
`SetChallengeMethod(plain)` fails with `ErrMethodDowngrade` — the option
does not enforce the downgrade rule, so the two disagree. -/
theorem c1_counterexample :
    applyOption defaultKey (OptionK.withChallengeMethod Plain) =
      (none, { defaultKey with challengeMethod := Plain }) ∧
    defaultKey.SetChallengeMethod Plain = (some Err.methodDowngrade, defaultKey) ∧
    applyOption defaultKey (OptionK.withChallengeMethod Plain) ≠
      defaultKey.SetChallengeMethod Plain := by
  refine ⟨by decide, by decide, by decide⟩

/-- C1 amended: `WithChallengeMethod(m)` agrees with `SetChallengeMethod(m)`
except in the downgrade case: both fail `ErrMethodNotSupported` on illegal
methods without mutation, and both succeed on legal methods outside the
downgrade case; but when the key is at `S256` and `m` is `plain`, the option
succeeds and sets `plain` while the instance method fails
`ErrMethodDowngrade`. -/
theorem c1_withChallengeMethod_vs_set (k : Key) (m : Method) :
    (¬(k.challengeMethod = S256 ∧ m = Plain) →
      applyOption k (OptionK.withChallengeMethod m) = k.SetChallengeMethod m) ∧
    (m ≠ Plain → m ≠ S256 →
      applyOption k (OptionK.withChallengeMethod m) = (some Err.methodNotSupported, k) ∧
      k.SetChallengeMethod m = (some Err.methodNotSupported, k)) ∧
    ((m = Plain ∨ m = S256) →
      applyOption k (OptionK.withChallengeMethod m) = (none, { k with challengeMethod := m })) ∧
    (k.challengeMethod = S256 →
      applyOption k (OptionK.withChallengeMethod Plain) = (none, { k with challengeMethod := Plain }) ∧
      k.SetChallengeMethod Plain = (some Err.methodDowngrade, k)) := by
  refine ⟨fun h1 => ?_, fun h1 h2 => ?_, fun h1 => ?_, fun h1 => ?_⟩
  · by_cases hp : m = Plain
    · subst hp
      have hk : k.challengeMethod ≠ "S256" := fun hs => h1 ⟨hs, rfl⟩
      simp [applyOption, Key.SetChallengeMethod, hk, Plain, S256]
    · by_cases hs : m = S256
      · subst hs
        simp [applyOption, Key.SetChallengeMethod, Plain, S256]
      · simp [applyOption, Key.SetChallengeMethod, hp, hs]
  · constructor <;> simp [applyOption, Key.SetChallengeMethod, h1, h2]
  · rcases h1 with h1 | h1 <;> subst h1 <;>
      simp [applyOption, Plain, S256]
  · constructor
    · simp [applyOption, Plain, S256]
    · simp [Key.SetChallengeMethod, h1, Plain, S256]

/-- C1 witness: the agreement cases exercised on concrete keys. -/
theorem c1_withChallengeMethod_vs_set_witness :
    applyOption zeroKey (OptionK.withChallengeMethod Plain) =
      zeroKey.SetChallengeMethod Plain ∧
    defaultKey.SetChallengeMethod "garbage" = (some Err.methodNotSupported, defaultKey) ∧
    applyOption defaultKey (OptionK.withChallengeMethod S256) =
      (none, { defaultKey with challengeMethod := S256 }) ∧
    defaultKey.SetChallengeMethod Plain = (some Err.methodDowngrade, defaultKey) :=
  ⟨(c1_withChallengeMethod_vs_set zeroKey Plain).1 (by decide),
   ((c1_withChallengeMethod_vs_set defaultKey "garbage").2.1 (by decide) (by decide)).2,
   (c1_withChallengeMethod_vs_set defaultKey S256).2.2.1 (Or.inr rfl),
   ((c1_withChallengeMethod_vs_set defaultKey Plain).2.2.2 rfl).2⟩

/-! ### Claim C3: method transitions on a fresh key -/

/-- C3 counterexample: the key built by `New` with no options is at `S256`,
and its `SetChallengeMethod(plain)` fails with `ErrMethodDowngrade` — a
fresh `New` key does not accept `plain`. -/
theorem c3_counterexample :
    New [] = (none, defaultKey) ∧
    defaultKey.challengeMethod = S256 ∧
    defaultKey.SetChallengeMethod Plain = (some Err.methodDowngrade, defaultKey) := by
  refine ⟨by decide, by decide, by decide⟩

/-- C3 amended: a fresh `New` key defaults to `S256` and therefore rejects
`plain` with `ErrMethodDowngrade`; a key whose method is not `S256` (such as
the zero `Key{}` of the tests) accepts `plain`, and every key accepts `S256`
(upgrade always allowed). -/
theorem c3_fresh_key_method_transitions :
    (New []).1 = none ∧
    ((New []).2.SetChallengeMethod Plain = (some Err.methodDowngrade, (New []).2)) ∧
    (∀ k : Key, k.challengeMethod ≠ S256 →
      k.SetChallengeMethod Plain = (none, { k with challengeMethod := Plain })) ∧
    (∀ k : Key, k.SetChallengeMethod S256 = (none, { k with challengeMethod := S256 })) := by
  refine ⟨by decide, by decide, fun k hk => ?_, fun k => ?_⟩
  · have hk2 : k.challengeMethod ≠ "S256" := hk
    simp [Key.SetChallengeMethod, hk2, Plain, S256]
  · simp [Key.SetChallengeMethod, Plain, S256]

/-- C3 witness: the amended transitions exercised on the zero key. -/
theorem c3_fresh_key_method_transitions_witness :
    zeroKey.SetChallengeMethod Plain = (none, { zeroKey with challengeMethod := Plain }) ∧
    ({ zeroKey with challengeMethod := Plain } : Key).SetChallengeMethod S256 =
      (none, { zeroKey with challengeMethod := S256 }) :=
  ⟨c3_fresh_key_method_transitions.2.2.1 zeroKey (by decide),
   c3_fresh_key_method_transitions.2.2.2 { zeroKey with challengeMethod := Plain }⟩

/-! ### More validation lemmas -/

theorem validateCodeVerifierCharacters_cases (v : Bytes) :
    validateCodeVerifierCharacters v = none ∨
    validateCodeVerifierCharacters v = some Err.verifierCharacters := by
  induction v with
  | nil => exact Or.inl rfl
  | cons c rest ih =>
      by_cases hc : validVerifierChar c
      · simpa [validateCodeVerifierCharacters, hc] using ih
      · simp [validateCodeVerifierCharacters, hc]

theorem validateCodeVerifier_eq_some_len {v : Bytes}
    (h : (v.length : Int) < 43 ∨ 128 < (v.length : Int)) :
    validateCodeVerifier v = some Err.verifierLength := by
  unfold validateCodeVerifier
  rw [validateVerifierLen_eq_some.mpr h]

theorem validateCodeVerifier_eq_some_chars {v : Bytes}
    (hmin : 43 ≤ (v.length : Int)) (hmax : (v.length : Int) ≤ 128)
    (hbad : ¬ ∀ b ∈ v, validVerifierChar b = true) :
    validateCodeVerifier v = some Err.verifierCharacters := by
  unfold validateCodeVerifier
  rw [validateVerifierLen_eq_none.mpr ⟨hmin, hmax⟩]
  rcases validateCodeVerifierCharacters_cases v with h | h
  · exact absurd (validateCodeVerifierCharacters_eq_none.mp h) hbad
  · rw [h]

/-! ### Claim C4: stateless verification never raises -/

/-- C4: `VerifyCodeVerifier` is total with boolean failure: under `plain` it
is exactly string equality of verifier and challenge; under `S256` it is
`false` whenever the candidate fails validation and otherwise compares the
derived challenge; under any other method it is always `false`. -/
theorem c4_verifyCodeVerifier_total (m : Method) (v ch : Bytes) :
    (m = Plain → (VerifyCodeVerifier m v ch = true ↔ v = ch)) ∧
    (m = S256 →
      (validateCodeVerifier v ≠ none → VerifyCodeVerifier m v ch = false) ∧
      (validateCodeVerifier v = none →
        (VerifyCodeVerifier m v ch = true ↔ generateCodeChallenge S256 v = ch))) ∧
    (m ≠ Plain → m ≠ S256 → VerifyCodeVerifier m v ch = false) := by
  refine ⟨fun h1 => ?_, fun h1 => ⟨fun h2 => ?_, fun h2 => ?_⟩, fun h1 h2 => ?_⟩
  · subst h1
    unfold VerifyCodeVerifier
    rw [if_pos (by decide)]
    exact beq_iff_eq
  · subst h1
    rcases hv : validateCodeVerifier v with _ | e
    · exact absurd hv h2
    · unfold VerifyCodeVerifier GenerateCodeChallenge
      rw [if_neg (by decide), if_pos (by decide), hv]
  · subst h1
    unfold VerifyCodeVerifier GenerateCodeChallenge
    rw [if_neg (by decide), if_pos (by decide), h2]
    exact beq_iff_eq
  · unfold VerifyCodeVerifier
    rw [if_neg (by simpa using h1), if_neg (by simpa using h2)]

/-- C4 witness: the four behaviours exercised on concrete inputs. -/
theorem c4_verifyCodeVerifier_total_witness :
    VerifyCodeVerifier Plain [97] [97] = true ∧
    VerifyCodeVerifier S256 [] [] = false ∧
    VerifyCodeVerifier S256 (List.replicate 43 97)
      (generateCodeChallenge S256 (List.replicate 43 97)) = true ∧
    VerifyCodeVerifier "nope" [97] [97] = false :=
  ⟨((c4_verifyCodeVerifier_total Plain [97] [97]).1 rfl).mpr rfl,
   ((c4_verifyCodeVerifier_total S256 [] []).2.1 rfl).1 (by decide),
   ((c4_verifyCodeVerifier_total S256 (List.replicate 43 97)
      (generateCodeChallenge S256 (List.replicate 43 97))).2.1 rfl).2 (by decide) |>.mpr rfl,
   (c4_verifyCodeVerifier_total "nope" [97] [97]).2.2 (by decide) (by decide)⟩

/-! ### Claim C5: `GenerateCodeVerifier` length and alphabet -/

/-- C5: for `43 ≤ n ≤ 128`, `GenerateCodeVerifier n` succeeds with a string
of length exactly `n` drawn from the 66-symbol unreserved alphabet; for any
other `n` (negative included) it fails with `ErrVerifierLength`. -/
theorem c5_generateCodeVerifier_spec (g : Nat → Fin 66) (c : Nat) (n : Int) :
    (43 ≤ n → n ≤ 128 →
      GenerateCodeVerifier g c n = Except.ok (generateCodeVerifier g c n.toNat) ∧
      ((generateCodeVerifier g c n.toNat).length : Int) = n ∧
      ∀ b ∈ generateCodeVerifier g c n.toNat, b ∈ unreservedBytes) ∧
    (n < 43 ∨ 128 < n → GenerateCodeVerifier g c n = Except.error Err.verifierLength) := by
  constructor
  · intro hmin hmax
    have hv : validateVerifierLen n = none := validateVerifierLen_eq_none.mpr ⟨hmin, hmax⟩
    refine ⟨?_, ?_, fun b hb => generateCodeVerifier_mem hb⟩
    · simp [GenerateCodeVerifier, hv]
    · rw [generateCodeVerifier_length]
      omega
  · intro h
    have hv : validateVerifierLen n = some Err.verifierLength :=
      validateVerifierLen_eq_some.mpr h
    simp [GenerateCodeVerifier, hv]

/-- C5 witness: a valid, a negative and an oversized length. -/
theorem c5_generateCodeVerifier_spec_witness :
    GenerateCodeVerifier (fun _ => (0 : Fin 66)) 0 43 =
      Except.ok (generateCodeVerifier (fun _ => (0 : Fin 66)) 0 (43 : Int).toNat) ∧
    GenerateCodeVerifier (fun _ => (0 : Fin 66)) 0 (-5) = Except.error Err.verifierLength ∧
    GenerateCodeVerifier (fun _ => (0 : Fin 66)) 0 129 = Except.error Err.verifierLength :=
  ⟨((c5_generateCodeVerifier_spec (fun _ => (0 : Fin 66)) 0 43).1 (by decide) (by decide)).1,
   (c5_generateCodeVerifier_spec (fun _ => (0 : Fin 66)) 0 (-5)).2 (by decide),
   (c5_generateCodeVerifier_spec (fun _ => (0 : Fin 66)) 0 129).2 (by decide)⟩

/-! ### Claim C6: `GenerateCodeChallenge` transform and validation -/

/-- C6: for a verifier passing validation, `GenerateCodeChallenge` succeeds,
returning the verifier unchanged when the method is exactly `plain` and the
base64url-without-padding of SHA-256 for every other method value (the
method itself is never validated); validation failures are
`ErrVerifierLength` for bad length and `ErrVerifierCharacters` for a
disallowed byte. -/
theorem c6_generateCodeChallenge_spec (m : Method) (v : Bytes) :
    (validateCodeVerifier v = none →
      GenerateCodeChallenge m v = Except.ok (generateCodeChallenge m v) ∧
      (m = Plain → generateCodeChallenge m v = v) ∧
      (m ≠ Plain → generateCodeChallenge m v = b64url (sha256 v))) ∧
    ((v.length : Int) < 43 ∨ 128 < (v.length : Int) →
      GenerateCodeChallenge m v = Except.error Err.verifierLength) ∧
    (43 ≤ (v.length : Int) → (v.length : Int) ≤ 128 →
      ¬(∀ b ∈ v, validVerifierChar b = true) →
      GenerateCodeChallenge m v = Except.error Err.verifierCharacters) := by
  refine ⟨fun h1 => ⟨?_, fun hp => ?_, fun hp => ?_⟩, fun h1 => ?_, fun h1 h2 h3 => ?_⟩
  · unfold GenerateCodeChallenge
    rw [h1]
  · subst hp
    unfold generateCodeChallenge
    rw [if_pos (by decide)]
  · unfold generateCodeChallenge
    rw [if_neg (by simpa using hp)]
  · unfold GenerateCodeChallenge
    rw [validateCodeVerifier_eq_some_len h1]
  · unfold GenerateCodeChallenge
    rw [validateCodeVerifier_eq_some_chars h1 h2 h3]

/-- C6 witness: success under `plain` and under an unrecognized method, a
length failure, and a character failure, on concrete verifiers. -/
theorem c6_generateCodeChallenge_spec_witness :
    GenerateCodeChallenge Plain (List.replicate 43 97) =
      Except.ok (List.replicate 43 97) ∧
    generateCodeChallenge "mystery" (List.replicate 43 97) =
      b64url (sha256 (List.replicate 43 97)) ∧
    GenerateCodeChallenge S256 [] = Except.error Err.verifierLength ∧
    GenerateCodeChallenge S256 (List.replicate 43 33) =
      Except.error Err.verifierCharacters := by
  refine ⟨?_, ?_, ?_, ?_⟩
  · have h := (c6_generateCodeChallenge_spec Plain (List.replicate 43 97)).1 (by decide)
    rw [h.1, h.2.1 rfl]
  · exact ((c6_generateCodeChallenge_spec "mystery" (List.replicate 43 97)).1
      (by decide)).2.2 (by decide)
  · exact (c6_generateCodeChallenge_spec S256 []).2.1 (by decide)
  · exact (c6_generateCodeChallenge_spec S256 (List.replicate 43 33)).2.2
      (by decide) (by decide) (by decide)

/-! ### Lemmas about reachable key states and the key invariant -/

theorem keyInv_default : KeyInv defaultKey :=
  ⟨by decide, by decide, Or.inr rfl, fun h => absurd rfl h⟩

theorem keyInv_setChallengeMethod {k : Key} (hk : KeyInv k) (m : Method) :
    KeyInv (k.SetChallengeMethod m).2 := by
  obtain ⟨h1, h2, h3, h4⟩ := hk
  unfold Key.SetChallengeMethod
  split_ifs with hOK hDown
  · exact ⟨h1, h2, h3, h4⟩
  · exact ⟨h1, h2, by simpa using hOK, h4⟩
  · exact ⟨h1, h2, h3, h4⟩

theorem keyInv_setCodeVerifierLength {k : Key} (hk : KeyInv k) (n : Int) :
    KeyInv (k.setCodeVerifierLength n).2 := by
  obtain ⟨h1, h2, h3, h4⟩ := hk
  unfold Key.setCodeVerifierLength
  split_ifs with hv
  · exact ⟨h1, h2, h3, h4⟩
  · have hnil : k.codeVerifier = [] := List.eq_nil_of_length_eq_zero (by omega)
    rcases hn : validateVerifierLen n with _ | e
    · have hb := validateVerifierLen_eq_none.mp hn
      exact ⟨hb.1, hb.2, h3, fun hne => absurd hnil hne⟩
    · exact ⟨h1, h2, h3, h4⟩

theorem keyInv_setCodeVerifier {k : Key} (hk : KeyInv k) (v : Bytes) :
    KeyInv (k.setCodeVerifier v).2 := by
  obtain ⟨h1, h2, h3, h4⟩ := hk
  unfold Key.setCodeVerifier
  rcases hv : validateCodeVerifier v with _ | e
  · have hb := validateCodeVerifier_eq_none.mp hv
    exact ⟨hb.1, hb.2.1, h3, fun _ => ⟨rfl, hv⟩⟩
  · exact ⟨h1, h2, h3, h4⟩

theorem keyInv_getCodeVerifier {k : Key} (hk : KeyInv k) (g : Nat → Fin 66) (c : Nat) :
    KeyInv (k.getCodeVerifier g c).2.1 := by
  obtain ⟨h1, h2, h3, h4⟩ := hk
  unfold Key.getCodeVerifier
  split_ifs with hv
  · refine ⟨h1, h2, h3, fun _ => ⟨?_, ?_⟩⟩
    · show ((generateCodeVerifier g c k.codeVerifierLen.toNat).length : Int) = k.codeVerifierLen
      rw [generateCodeVerifier_length]
      omega
    · show validateCodeVerifier (generateCodeVerifier g c k.codeVerifierLen.toNat) = none
      exact generateCodeVerifier_valid (by omega) (by omega)
  · exact ⟨h1, h2, h3, h4⟩

theorem keyInv_applyOption {k : Key} (hk : KeyInv k) (o : OptionK) :
    KeyInv (applyOption k o).2 := by
  cases o with
  | withChallengeMethod m =>
      obtain ⟨h1, h2, h3, h4⟩ := hk
      simp only [applyOption]
      split_ifs with hOK
      · exact ⟨h1, h2, by simpa using hOK, h4⟩
      · exact ⟨h1, h2, h3, h4⟩
  | withCodeVerifier v => exact keyInv_setCodeVerifier hk v
  | withCodeVerifierLength n => exact keyInv_setCodeVerifierLength hk n

theorem keyInv_of_reached {k : Key} (h : Reached k) : KeyInv k := by
  induction h with
  | base => exact keyInv_default
  | opt k o _ ih => exact keyInv_applyOption ih o
  | setMethod k m _ ih => exact keyInv_setChallengeMethod ih m
  | setLen k n _ ih => exact keyInv_setCodeVerifierLength ih n
  | setVer k v _ ih => exact keyInv_setCodeVerifier ih v
  | getVer k g c _ ih => exact keyInv_getCodeVerifier ih g c

theorem reached_applyOptions {k : Key} (h : Reached k) (opts : List OptionK) :
    Reached (applyOptions k opts).2 := by
  induction opts generalizing k with
  | nil => exact h
  | cons o rest ih =>
      unfold applyOptions
      rcases ho : applyOption k o with ⟨e, k1⟩
      have hk1 : Reached k1 := by
        have := Reached.opt k o h
        rw [ho] at this
        exact this
      cases e
      · exact ih hk1
      · exact hk1

theorem reached_new (opts : List OptionK) : Reached (New opts).2 :=
  reached_applyOptions Reached.base opts

/-! ### Digest shape lemmas and the round-trip core -/

theorem sha256_length (msg : Bytes) : (sha256 msg).length = 32 := by
  simp [sha256, digestBytes, wordBytesBE]

theorem sha256_lt (msg : Bytes) : ∀ b ∈ sha256 msg, b < 256 := by
  intro b hb
  simp only [sha256, digestBytes, wordBytesBE, List.mem_append, List.mem_cons,
    List.not_mem_nil, or_false] at hb
  rcases hb with ((h | h | h | h) | (h | h | h | h) | (h | h | h | h) | (h | h | h | h)) |
    ((h | h | h | h) | (h | h | h | h) | (h | h | h | h) | (h | h | h | h)) <;>
    omega

theorem sha256_getD_lt (msg : Bytes) (i : Fin 32) : (sha256 msg).getD i 0 < 256 := by
  have hlen : (i : Nat) < (sha256 msg).length := by
    rw [sha256_length]
    exact i.2
  rw [List.getD_eq_getElem _ 0 hlen]
  exact sha256_lt msg _ (List.getElem_mem hlen)

theorem sha256_ext {v1 v2 : Bytes}
    (h : ∀ i : Fin 32, (sha256 v1).getD i 0 = (sha256 v2).getD i 0) :
    sha256 v1 = sha256 v2 := by
  have hl1 := sha256_length v1
  have hl2 := sha256_length v2
  refine List.ext_getElem (by rw [hl1, hl2]) (fun i h1 h2 => ?_)
  have hi : i < 32 := by rwa [hl1] at h1
  have := h ⟨i, hi⟩
  rwa [List.getD_eq_getElem _ 0 h1, List.getD_eq_getElem _ 0 h2] at this

/-- Verification of a verifier against its own freshly derived challenge
succeeds for both legal methods. -/
theorem verify_roundtrip {m : Method} {v : Bytes}
    (hm : m = Plain ∨ m = S256) (hv : validateCodeVerifier v = none) :
    VerifyCodeVerifier m v (generateCodeChallenge m v) = true := by
  rcases hm with hm | hm <;> subst hm
  · unfold VerifyCodeVerifier
    rw [if_pos (by decide)]
    exact beq_self_eq_true v
  · unfold VerifyCodeVerifier GenerateCodeChallenge
    rw [if_neg (by decide), if_pos (by decide), hv]
    exact beq_self_eq_true (generateCodeChallenge S256 v)

/-! ### Lemmas about the collision-counting maps -/

theorem encodeVerifier_length (x : Fin 128 → Fin 66) :
    (encodeVerifier x).length = 128 := by
  rw [encodeVerifier]
  exact List.length_ofFn _

theorem encodeVerifier_valid (x : Fin 128 → Fin 66) :
    validateCodeVerifier (encodeVerifier x) = none := by
  rw [validateCodeVerifier_eq_none, encodeVerifier_length]
  refine ⟨by omega, by omega, fun b hb => ?_⟩
  simp only [encodeVerifier, List.mem_ofFn] at hb
  obtain ⟨i, rfl⟩ := hb
  exact validVerifierChar_unreserved (x i)

theorem unreservedBytes_getD_injective :
    ∀ a b : Fin 66, unreservedBytes.getD a 0 = unreservedBytes.getD b 0 → a = b := by
  decide

theorem encodeVerifier_injective : Function.Injective encodeVerifier := by
  intro x y hxy
  have h := List.ofFn_injective hxy
  funext i
  exact unreservedBytes_getD_injective (x i) (y i) (congrFun h i)

/-! ### Claim C7: the S256 round trip -/

/-- C7 counterexample: the claim "false for any valid `v2 ≠ v`" fails in
full generality: valid verifiers of length 128 outnumber the possible
SHA-256 digests, so by pigeonhole two distinct valid verifiers share a
digest, and the second verifies successfully against the first one's
challenge. -/
theorem c7_counterexample :
    ¬ ∀ (v v2 : Bytes), validateCodeVerifier v = none → validateCodeVerifier v2 = none →
      v2 ≠ v → VerifyCodeVerifier S256 v2 (generateCodeChallenge S256 v) = false := by
  intro hclaim
  obtain ⟨x, y, hxy, hfeq⟩ := Fintype.exists_ne_map_eq_of_card_lt
    (fun x : Fin 128 → Fin 66 => digestFin (encodeVerifier x))
    (by
      rw [Fintype.card_fun, Fintype.card_fun, Fintype.card_fin, Fintype.card_fin,
        Fintype.card_fin, Fintype.card_fin]
      norm_num)
  have hsha : sha256 (encodeVerifier x) = sha256 (encodeVerifier y) := by
    apply sha256_ext
    intro i
    have hfi := congrFun hfeq i
    have hx := sha256_getD_lt (encodeVerifier x) i
    have hy := sha256_getD_lt (encodeVerifier y) i
    have hmod : (sha256 (encodeVerifier x)).getD i 0 % 256 =
        (sha256 (encodeVerifier y)).getD i 0 % 256 := congrArg Fin.val hfi
    omega
  have hchal : generateCodeChallenge S256 (encodeVerifier y) =
      generateCodeChallenge S256 (encodeVerifier x) := by
    unfold generateCodeChallenge
    rw [if_neg (by decide), if_neg (by decide), hsha]
  have hne : encodeVerifier y ≠ encodeVerifier x :=
    fun he => hxy (encodeVerifier_injective he).symm
  have hfalse := hclaim (encodeVerifier x) (encodeVerifier y)
    (encodeVerifier_valid x) (encodeVerifier_valid y) hne
  have htrue : VerifyCodeVerifier S256 (encodeVerifier y)
      (generateCodeChallenge S256 (encodeVerifier x)) = true := by
    rw [← hchal]
    exact verify_roundtrip (Or.inr rfl) (encodeVerifier_valid y)
  rw [htrue] at hfalse
  exact Bool.noConfusion hfalse

/-- C7 amended: for every valid verifier `v` the S256 round trip verifies,
and a valid `v2` fails to verify against `v`'s challenge whenever its own
derived challenge differs (full injectivity cannot hold: SHA-256 has
collisions among valid verifiers by counting, though none is computable). -/
theorem c7_roundtrip (v v2 : Bytes) :
    (validateCodeVerifier v = none →
      VerifyCodeVerifier S256 v (generateCodeChallenge S256 v) = true) ∧
    (validateCodeVerifier v2 = none →
      generateCodeChallenge S256 v2 ≠ generateCodeChallenge S256 v →
      VerifyCodeVerifier S256 v2 (generateCodeChallenge S256 v) = false) := by
  refine ⟨fun hv => verify_roundtrip (Or.inr rfl) hv, fun hv2 hne => ?_⟩
  unfold VerifyCodeVerifier GenerateCodeChallenge
  rw [if_neg (by decide), if_pos (by decide), hv2]
  exact beq_eq_false_iff_ne.mpr hne

/-- C7 witness: the round trip on a concrete valid verifier, and failure
for a distinct valid verifier with a different challenge. -/
theorem c7_roundtrip_witness :
    VerifyCodeVerifier S256 (List.replicate 43 97)
      (generateCodeChallenge S256 (List.replicate 43 97)) = true ∧
    VerifyCodeVerifier S256 (List.replicate 43 98)
      (generateCodeChallenge S256 (List.replicate 43 97)) = false :=
  ⟨(c7_roundtrip (List.replicate 43 97) (List.replicate 43 98)).1 (by decide),
   (c7_roundtrip (List.replicate 43 97) (List.replicate 43 98)).2 (by decide)
     (by decide)⟩

/-! ### Facts about the verifier accessor -/

theorem getCodeVerifier_facts {k : Key} (hk : KeyInv k) (g : Nat → Fin 66) (c : Nat) :
    validateCodeVerifier (k.getCodeVerifier g c).1 = none ∧
    (k.getCodeVerifier g c).2.1 = { k with codeVerifier := (k.getCodeVerifier g c).1 } := by
  obtain ⟨h1, h2, h3, h4⟩ := hk
  unfold Key.getCodeVerifier
  split_ifs with hv
  · exact ⟨generateCodeVerifier_valid (by omega) (by omega), rfl⟩
  · have hne : k.codeVerifier ≠ [] := fun hnil => hv (by rw [hnil]; rfl)
    exact ⟨(h4 hne).2, rfl⟩

/-! ### Claim C8: lazy memoization of the verifier -/

/-- C8: on a key with no verifier, the first accessor call generates a
verifier of the configured target length and stores it; a second call (with
arbitrary fresh randomness) returns exactly the same bytes without touching
the key or consuming randomness; consequently two successive
`CodeChallenge` calls return identical strings. -/
theorem c8_lazy_memoization (k : Key) (g g2 : Nat → Fin 66) (c c2 : Nat)
    (hempty : k.codeVerifier = []) (hlen : 0 < k.codeVerifierLen) :
    (k.getCodeVerifier g c).1 = generateCodeVerifier g c k.codeVerifierLen.toNat ∧
    (k.getCodeVerifier g c).1.length = k.codeVerifierLen.toNat ∧
    (k.getCodeVerifier g c).2.1 = { k with codeVerifier := (k.getCodeVerifier g c).1 } ∧
    (k.getCodeVerifier g c).2.1.getCodeVerifier g2 c2 =
      ((k.getCodeVerifier g c).1, (k.getCodeVerifier g c).2.1, c2) ∧
    ((k.CodeChallenge g c).2.1.CodeChallenge g2 c2).1 = (k.CodeChallenge g c).1 := by
  have hcond : k.codeVerifier.length = 0 := by rw [hempty]; rfl
  have h1 : k.getCodeVerifier g c =
      (generateCodeVerifier g c k.codeVerifierLen.toNat,
       { k with codeVerifier := generateCodeVerifier g c k.codeVerifierLen.toNat },
       c + k.codeVerifierLen.toNat) := by
    unfold Key.getCodeVerifier
    rw [if_pos hcond]
  have hglen : (generateCodeVerifier g c k.codeVerifierLen.toNat).length =
      k.codeVerifierLen.toNat := generateCodeVerifier_length g c _
  have hgne : (generateCodeVerifier g c k.codeVerifierLen.toNat).length ≠ 0 := by
    rw [hglen]
    omega
  have h2 : ({ k with codeVerifier := generateCodeVerifier g c k.codeVerifierLen.toNat } :
        Key).getCodeVerifier g2 c2 =
      (generateCodeVerifier g c k.codeVerifierLen.toNat,
       { k with codeVerifier := generateCodeVerifier g c k.codeVerifierLen.toNat }, c2) := by
    unfold Key.getCodeVerifier
    rw [if_neg hgne]
  refine ⟨by rw [h1], by rw [h1]; exact hglen, by rw [h1], by rw [h1]; exact h2, ?_⟩
  show (Key.CodeChallenge (k.CodeChallenge g c).2.1 g2 c2).1 = (k.CodeChallenge g c).1
  unfold Key.CodeChallenge Key.ChallengeMethod
  rw [h1]
  rw [h2]

/-- C8 witness: memoization exercised on the default key. -/
theorem c8_lazy_memoization_witness :
    (defaultKey.getCodeVerifier (fun _ => (0 : Fin 66)) 0).2.1.getCodeVerifier
        (fun _ => (1 : Fin 66)) 7 =
      ((defaultKey.getCodeVerifier (fun _ => (0 : Fin 66)) 0).1,
       (defaultKey.getCodeVerifier (fun _ => (0 : Fin 66)) 0).2.1, 7) ∧
    ((defaultKey.CodeChallenge (fun _ => (0 : Fin 66)) 0).2.1.CodeChallenge
        (fun _ => (1 : Fin 66)) 7).1 =
      (defaultKey.CodeChallenge (fun _ => (0 : Fin 66)) 0).1 :=
  ⟨(c8_lazy_memoization defaultKey (fun _ => (0 : Fin 66)) (fun _ => (1 : Fin 66)) 0 7
      rfl (by decide)).2.2.2.1,
   (c8_lazy_memoization defaultKey (fun _ => (0 : Fin 66)) (fun _ => (1 : Fin 66)) 0 7
      rfl (by decide)).2.2.2.2⟩

/-! ### Claim C9: the verifier/length invariant -/

/-- C9: on every reachable key a present verifier has `codeVerifierLen`
equal to its length; `setCodeVerifierLength` is a no-op when a verifier is
present; a successful `setCodeVerifier` stores the verifier and updates the
length to match. -/
theorem c9_key_invariant (k : Key) :
    (Reached k → k.codeVerifier ≠ [] →
      (k.codeVerifier.length : Int) = k.codeVerifierLen) ∧
    (∀ n, k.codeVerifier ≠ [] → k.setCodeVerifierLength n = (none, k)) ∧
    (∀ v, (k.setCodeVerifier v).1 = none →
      (k.setCodeVerifier v).2.codeVerifier = v ∧
      ((k.setCodeVerifier v).2.codeVerifier.length : Int) =
        (k.setCodeVerifier v).2.codeVerifierLen) := by
  refine ⟨fun h hne => ((keyInv_of_reached h).2.2.2 hne).1, fun n hne => ?_, fun v hv => ?_⟩
  · unfold Key.setCodeVerifierLength
    rw [if_pos]
    have := List.length_pos.mpr hne
    omega
  · unfold Key.setCodeVerifier at hv ⊢
    rcases hval : validateCodeVerifier v with _ | e
    · exact ⟨rfl, rfl⟩
    · rw [hval] at hv
      exact Option.noConfusion hv

/-- C9 witness: the invariant and both operations exercised on a key that
holds a concrete verifier. -/
theorem c9_key_invariant_witness :
    (((defaultKey.setCodeVerifier (List.replicate 50 97)).2.codeVerifier.length : Int) =
      (defaultKey.setCodeVerifier (List.replicate 50 97)).2.codeVerifierLen) ∧
    ((defaultKey.setCodeVerifier (List.replicate 50 97)).2.setCodeVerifierLength 100 =
      (none, (defaultKey.setCodeVerifier (List.replicate 50 97)).2)) ∧
    (defaultKey.setCodeVerifier (List.replicate 50 97)).2.codeVerifier =
      List.replicate 50 97 :=
  ⟨(c9_key_invariant (defaultKey.setCodeVerifier (List.replicate 50 97)).2).1
      (Reached.setVer defaultKey (List.replicate 50 97) Reached.base) (by decide),
   (c9_key_invariant (defaultKey.setCodeVerifier (List.replicate 50 97)).2).2.1 100
      (by decide),
   ((c9_key_invariant defaultKey).2.2 (List.replicate 50 97) (by decide)).1⟩

/-! ### Claim C10: self-verification of a constructed key -/

/-- C10: any key returned by a successful `New` verifies its own verifier:
reading `CodeVerifier` (materializing it if needed) and then calling the
key's `VerifyCodeVerifier` with it returns `true`, under whichever legal
method the key is configured with. -/
theorem c10_self_verification (opts : List OptionK) (k : Key)
    (g g2 : Nat → Fin 66) (c c2 : Nat) (h : New opts = (none, k)) :
    ((k.CodeVerifier g c).2.1.VerifyOwn g2 c2 (k.CodeVerifier g c).1).1 = true := by
  have hr : Reached k := by
    have hn := reached_new opts
    rw [h] at hn
    exact hn
  have hk := keyInv_of_reached hr
  have hf := getCodeVerifier_facts hk g c
  have hvalid : validateCodeVerifier (k.getCodeVerifier g c).1 = none := hf.1
  have hlen : 43 ≤ (((k.getCodeVerifier g c).1.length : Int)) :=
    (validateCodeVerifier_eq_none.mp hvalid).1
  have hne : ¬((k.getCodeVerifier g c).2.1.codeVerifier.length = 0) := by
    rw [hf.2]
    show ¬((k.getCodeVerifier g c).1.length = 0)
    omega
  have hstored : ∀ k1 : Key, k1.codeVerifier.length ≠ 0 →
      k1.getCodeVerifier g2 c2 = (k1.codeVerifier, k1, c2) := by
    intro k1 hk1
    unfold Key.getCodeVerifier
    rw [if_neg hk1]
  have hsecond : (k.getCodeVerifier g c).2.1.getCodeVerifier g2 c2 =
      ((k.getCodeVerifier g c).2.1.codeVerifier, (k.getCodeVerifier g c).2.1, c2) :=
    hstored _ hne
  have hm : (k.getCodeVerifier g c).2.1.challengeMethod = k.challengeMethod := by
    rw [hf.2]
  have hver : (k.getCodeVerifier g c).2.1.codeVerifier = (k.getCodeVerifier g c).1 := by
    rw [hf.2]
  show (VerifyCodeVerifier (k.getCodeVerifier g c).2.1.ChallengeMethod
    (k.getCodeVerifier g c).1
    (generateCodeChallenge (k.getCodeVerifier g c).2.1.ChallengeMethod
      ((k.getCodeVerifier g c).2.1.getCodeVerifier g2 c2).1)) = true
  rw [hsecond]
  show (VerifyCodeVerifier (k.getCodeVerifier g c).2.1.challengeMethod
    (k.getCodeVerifier g c).1
    (generateCodeChallenge (k.getCodeVerifier g c).2.1.challengeMethod
      (k.getCodeVerifier g c).2.1.codeVerifier)) = true
  rw [hver, hm]
  exact verify_roundtrip hk.2.2.1 hvalid

/-- C10 witness: self-verification of the key built by `New` with no
options. -/
theorem c10_self_verification_witness :
    ((defaultKey.CodeVerifier (fun _ => (0 : Fin 66)) 0).2.1.VerifyOwn
        (fun _ => (0 : Fin 66)) 50
        (defaultKey.CodeVerifier (fun _ => (0 : Fin 66)) 0).1).1 = true :=
  c10_self_verification [] defaultKey (fun _ => (0 : Fin 66)) (fun _ => (0 : Fin 66))
    0 50 rfl

end PKCE
